import Mathlib

/-
Verification of the Homer execution engine (src/homer/__init__.py) against its
specification.  The engine iterates a device selection, renders a configuration
per device, dispatches to one of three action handlers (generate / diff /
commit), aggregates outcomes and diff groups, and implements the interactive
commit-confirmation protocol.

External collaborators (homer.config, homer.templates, homer.netbox,
homer.transports.junos, homer.exceptions, the filesystem and the terminal) are
not part of the source under study; following the specification they are
modelled as explicit behaviour parameters collected in the `Env` structure.
Domain errors (HomerError) are modelled by their message string; uncaught
Python exceptions are modelled by the `PyErr` type and an `Except.error`
outcome of the run.  Side effects (file writes, connection open and close,
output-directory preparation, logging) are modelled as an event trace.
-/

namespace Homer

/-- A managed network device: fully-qualified name plus role, as resolved by
the Device Directory (`homer.devices`, outside the source under study). -/
structure Device where
  fqdn : String
  role : String
deriving Repr, DecidableEq

/-- A Python exception escaping a handler: either a HomerError domain error or
an OSError from the filesystem, each carrying its message.  `_execute` catches
only HomerError, and only around the assembly and render calls. -/
inductive PyErr where
  | homerError (message : String)
  | osError (message : String)
deriving Repr, DecidableEq

/-- An observable side effect of a run. -/
inductive Event where
  | log (message : String)
  | fileWrite (path : String) (content : String)
  | connectOpen (fqdn : String)
  | connectClose (fqdn : String)
  | mkdir
  | purge (name : String)
deriving Repr, DecidableEq

/-- Event classifier: the two output-directory preparation effects
(`Path.mkdir` and `Path.unlink` in `_prepare_out_dir`). -/
def Event.isDirPrep : Event → Bool
  | Event.mkdir => true
  | Event.purge _ => true
  | _ => false

/-- Decidable equality for `Except`, needed to evaluate run outcomes on
concrete inputs. -/
instance {ε : Type u} {α : Type v} [DecidableEq ε] [DecidableEq α] :
    DecidableEq (Except ε α)
  | Except.error a, Except.error b =>
      if h : a = b then Decidable.isTrue (congrArg Except.error h)
      else Decidable.isFalse (fun hc => h (Except.error.inj hc))
  | Except.error _, Except.ok _ => Decidable.isFalse (fun hc => Except.noConfusion hc)
  | Except.ok _, Except.error _ => Decidable.isFalse (fun hc => Except.noConfusion hc)
  | Except.ok a, Except.ok b =>
      if h : a = b then Decidable.isTrue (congrArg Except.ok h)
      else Decidable.isFalse (fun hc => h (Except.ok.inj hc))

/-- Result of the interactive commit-confirmation callback defined inside
`_device_commit` (lines 163-181 of the source): the outcome (normal return or
a raised HomerError message), the lines printed to stdout, and the number of
`input()` reads consumed. -/
structure CallbackResult where
  outcome : Except String Unit
  printed : List String
  consumed : Nat
deriving Repr, DecidableEq

/-- The literal messages of the source. -/
def notATtyMsg : String := "Not in a TTY, unable to ask for confirmation"

def commitAbortedMsg : String := "Commit aborted"

def tooManyMsg : String := "Too many invalid answers, commit aborted"

def invalidRespMsg : String :=
  "Invalid response, please type \"yes\" to commit or \"no\" to abort. After 2 wrong answers the commit will be aborted."

/-- The `for _ in range(2): resp = input(...)` loop of the callback, with its
`for`/`else` clause.  The first argument is the number of remaining attempts
(2 at the top-level call); the second is the pending operator responses, one
consumed per `input()` call.  Reading past the end of the supplied response
list is modelled as reading the empty string (an invalid response).  Returns
the outcome, the invalid-input lines printed, and the number of reads. -/
def promptLoop : Nat → List String → Except String Unit × List String × Nat
  | 0, _ => (Except.error tooManyMsg, [], 0)
  | n + 1, inputs =>
      let resp := inputs.headD ""
      if resp = "yes" then
        (Except.ok (), [], 1)
      else if resp = "no" then
        (Except.error commitAbortedMsg, [], 1)
      else
        match promptLoop n inputs.tail with
        | (o, p, c) => (o, invalidRespMsg :: p, c + 1)

/-- The confirmation callback of `_device_commit` (source lines 163-181).
`isatty` models `sys.stdout.isatty()`, `inputs` the operator responses.  When
not attached to a TTY it raises at once, printing nothing and reading nothing;
otherwise it prints the diff header and the instructions, then runs the
two-attempt prompt loop. -/
def commitCallback (isatty : Bool) (inputs : List String) (fqdn diff : String) :
    CallbackResult :=
  if isatty then
    match promptLoop 2 inputs with
    | (o, p, c) =>
        { outcome := o,
          printed := ("Configuration diff for " ++ fqdn ++ ":\n" ++ diff) ::
            "Type \"yes\" to commit, \"no\" to abort." :: p,
          consumed := c }
  else
    { outcome := Except.error notATtyMsg, printed := [], consumed := 0 }

/-- Result of one action-handler invocation: the returned `(success, diff)`
pair or the exception it raised, together with the side effects it performed
before returning or raising. -/
structure HandlerResult where
  result : Except PyErr (Bool × String)
  events : List Event
deriving Repr, DecidableEq

/-- Modelled from the spec: the behaviour of the external collaborators of the
engine for one run.  `render` combines `HierarchicalConfig.get`, the optional
NetboxData enrichment and `Renderer.render` (modules homer.config,
homer.netbox, homer.templates, outside the source under study), any of which
may raise a HomerError, modelled as `Except.error` with the message.
`writeError` models the filesystem: the OSError message raised when writing a
given path, if any.  `connect` models `connected_device(fqdn)` of
homer.transports.junos: `some message` when opening the connection raises a
HomerError domain error.  `commitCheck` models
`connection.commit_check(config)`, which per the spec contract returns a
`(success, diff_text)` pair.  `stagedDiff` is the diff the transport passes to
the confirmation callback during `connection.commit`; `commitFinalize` is the
HomerError message raised while finalising a confirmed commit, if any.
`isatty` models `sys.stdout.isatty()`, and `inputs` the operator responses
available on stdin while committing to a given device. -/
structure Env where
  render : Device → Except String String
  writeError : String → Option String
  connect : String → Option String
  commitCheck : String → String → Bool × String
  stagedDiff : String → String → String
  commitFinalize : String → String → String → Option String
  isatty : Bool
  inputs : String → List String
  outputBasePath : String

/-- The output path used by `_device_generate`:
`self._output_base_path / (device.fqdn + Homer.OUT_EXTENSION)`. -/
def outputPath (env : Env) (device : Device) : String :=
  env.outputBasePath ++ "/" ++ device.fqdn ++ ".out"

/-- `_device_generate` (source lines 115-132): writes the rendered
configuration to the per-device output file and logs, returning `(True, '')`.
A filesystem write failure raises an OSError, which the function does not
catch (no file content is recorded in that case). -/
def deviceGenerate (env : Env) (device : Device) (cfg : String) : HandlerResult :=
  match env.writeError (outputPath env device) with
  | some m => { result := Except.error (PyErr.osError m), events := [] }
  | none =>
      { result := Except.ok (true, ""),
        events := [Event.fileWrite (outputPath env device) cfg,
          Event.log ("Written configuration for " ++ device.fqdn ++ " in " ++
            outputPath env device)] }

/-- `_device_diff` (source lines 134-147): opens a scoped connection and
returns exactly the `(success, diff_text)` pair of `commit_check`.  A domain
error raised while opening the connection is not caught and propagates. -/
def deviceDiff (env : Env) (device : Device) (cfg : String) : HandlerResult :=
  match env.connect device.fqdn with
  | some m => { result := Except.error (PyErr.homerError m), events := [] }
  | none =>
      { result := Except.ok (env.commitCheck device.fqdn cfg),
        events := [Event.connectOpen device.fqdn, Event.connectClose device.fqdn] }

/-- Modelled from the spec: `connection.commit(config, message, callback)` of
homer.transports.junos (outside the source under study).  Per the spec, the
transport computes the staged diff, invokes the engine-supplied confirmation
callback with `(fqdn, diff)`, and finalises only on normal return, raising a
HomerError domain error on any failure including a confirmation abort.
Returns the HomerError message raised, if any. -/
def transportCommit (env : Env) (fqdn cfg message : String) : Except String Unit :=
  match (commitCallback env.isatty (env.inputs fqdn) fqdn
      (env.stagedDiff fqdn cfg)).outcome with
  | Except.error m => Except.error m
  | Except.ok _ =>
      match env.commitFinalize fqdn cfg message with
      | some m => Except.error m
      | none => Except.ok ()

/-- `_device_commit` (source lines 149-189): opens a scoped connection, runs
the transport commit with the confirmation callback, catches any HomerError
(logging it) and converts it to `(False, '')`; returns `(True, '')` on
success.  A domain error raised while opening the connection is outside the
try block and propagates. -/
def deviceCommit (env : Env) (message : String) (device : Device) (cfg : String) :
    HandlerResult :=
  match env.connect device.fqdn with
  | some m => { result := Except.error (PyErr.homerError m), events := [] }
  | none =>
      match transportCommit env device.fqdn cfg message with
      | Except.ok _ =>
          { result := Except.ok (true, ""),
            events := [Event.connectOpen device.fqdn, Event.connectClose device.fqdn] }
      | Except.error _ =>
          { result := Except.ok (false, ""),
            events := [Event.connectOpen device.fqdn,
              Event.log ("Failed to commit on " ++ device.fqdn),
              Event.connectClose device.fqdn] }

/-- The run aggregates of `_execute` (source lines 198-232): the outcome map
`successes` (`succ` is `successes[True]`, `fail` is `successes[False]`), the
diff map `diffs` (a `defaultdict(list)` with insertion-ordered keys, modelled
as an association list), and the event trace of the run. -/
structure RunAggregates where
  succ : List String
  fail : List String
  diffs : List (String × List String)
  events : List Event
deriving Repr, DecidableEq

/-- The initial aggregates of `_execute`. -/
def emptyAggregates : RunAggregates :=
  { succ := [], fail := [], diffs := [], events := [] }

/-- `diffs[key].append(fqdn)` on the insertion-ordered diff map: append to the
entry of `key` if present, otherwise add a new entry at the end. -/
def diffsInsert : List (String × List String) → String → String →
    List (String × List String)
  | [], key, fqdn => [(key, [fqdn])]
  | (k, v) :: rest, key, fqdn =>
      if k = key then (k, v ++ [fqdn]) :: rest
      else (k, v) :: diffsInsert rest key fqdn

/-- Lookup in the diff map; a missing key reads as the empty device list. -/
def diffsLookup : List (String × List String) → String → List String
  | [], _ => []
  | (k, v) :: rest, key => if k = key then v else diffsLookup rest key

/-- One iteration of the `_execute` device loop (source lines 215-230): log,
assemble and render inside a try block that catches HomerError and records a
failure; on success call the action handler *outside* any try block, so an
exception raised by the handler propagates and aborts the run (modelled as
`Except.error` carrying the exception and the aggregates at that point);
otherwise record the returned pair in the outcome and diff maps. -/
def executeStep (render : Device → Except String String)
    (handler : Device → String → HandlerResult) (st : RunAggregates)
    (d : Device) : Except (PyErr × RunAggregates) RunAggregates :=
  match render d with
  | Except.error _ =>
      Except.ok { st with
        fail := st.fail ++ [d.fqdn],
        events := st.events ++
          [Event.log ("Generating configuration for " ++ d.fqdn),
           Event.log ("Device " ++ d.fqdn ++ " failed to render the template, skipping.")] }
  | Except.ok cfg =>
      match (handler d cfg).result with
      | Except.error e =>
          Except.error (e, { st with
            events := st.events ++
              (Event.log ("Generating configuration for " ++ d.fqdn) ::
                (handler d cfg).events) })
      | Except.ok (flag, diff) =>
          Except.ok { st with
            succ := if flag then st.succ ++ [d.fqdn] else st.succ,
            fail := if flag then st.fail else st.fail ++ [d.fqdn],
            diffs := diffsInsert st.diffs diff d.fqdn,
            events := st.events ++
              (Event.log ("Generating configuration for " ++ d.fqdn) ::
                (handler d cfg).events) }

/-- The `_execute` loop over the device selection, starting from the given
aggregates.  The selection itself is resolved by the external Device
Directory (`self._devices.query(query)`), so the runs take the ordered device
list directly. -/
def executeFrom (render : Device → Except String String)
    (handler : Device → String → HandlerResult) :
    RunAggregates → List Device → Except (PyErr × RunAggregates) RunAggregates
  | st, [] => Except.ok st
  | st, d :: rest =>
      match executeStep render handler st d with
      | Except.error e => Except.error e
      | Except.ok st1 => executeFrom render handler st1 rest

/-- The aggregates reached by a run, whether it completed or aborted. -/
def resultState : Except (PyErr × RunAggregates) RunAggregates → RunAggregates
  | Except.ok st => st
  | Except.error (_, st) => st

/-- `_parse_results` (source lines 234-251): exit status 1 when the failure
bucket is non-empty, 0 otherwise.  (Its two logging calls are outside the
modelled traces.) -/
def parseResults (st : RunAggregates) : Nat :=
  if st.fail ≠ [] then 1 else 0

/-- One directory entry of the output directory, as seen by
`Path.iterdir`: its name and whether it is a regular file. -/
structure DirEntry where
  name : String
  isFile : Bool
deriving Repr, DecidableEq

/-- `pathlib.PurePath.suffix`: the extension of the name from its last dot,
empty when the last dot is the first character or the name has no dot or ends
in a dot. -/
def lastDotIdx : List Char → Option Nat
  | [] => none
  | c :: cs =>
      match lastDotIdx cs with
      | some i => some (i + 1)
      | none => if c = '.' then some 0 else none

/-- The `path.suffix` of a file name, following pathlib. -/
def pathSuffix (name : String) : String :=
  match lastDotIdx name.data with
  | none => ""
  | some i => if 0 < i ∧ i < name.data.length - 1 then String.mk (name.data.drop i) else ""

/-- The purge condition of `_prepare_out_dir`: a regular file whose suffix is
exactly `Homer.OUT_EXTENSION` (".out"). -/
def isStaleOut (e : DirEntry) : Bool :=
  e.isFile && (pathSuffix e.name == ".out")

/-- `_prepare_out_dir` (source lines 191-196): create the output directory
(with parents, exist_ok) if absent, then unlink every regular file directly
inside it whose suffix is ".out", leaving everything else untouched.  Takes
the directory contents (`none` when the directory does not exist) and returns
the contents afterwards together with the effects performed. -/
def prepareOutDir : Option (List DirEntry) → List DirEntry × List Event
  | none => ([], [Event.mkdir])
  | some entries =>
      (entries.filter (fun e => !(isStaleOut e)),
        Event.mkdir :: (entries.filter isStaleOut).map (fun e => Event.purge e.name))

/-- `Homer.generate` (source lines 66-79): prepare the output directory, run
the loop with the generate handler, and map the outcome map to an exit
status.  (The initial banner log and the `_parse_results` logs are outside
the modelled trace; the query-resolution step is the external Device
Directory.) -/
def generateRun (env : Env) (outDir : Option (List DirEntry)) (devices : List Device) :
    Except (PyErr × RunAggregates) (Nat × RunAggregates) :=
  match executeFrom env.render (deviceGenerate env)
      { emptyAggregates with events := (prepareOutDir outDir).2 } devices with
  | Except.error e => Except.error e
  | Except.ok st => Except.ok (parseResults st, st)

/-- `Homer.diff` (source lines 81-98): run the loop with the diff handler and
map the outcome map to an exit status.  (The printing of the diff groups to
stdout is not part of the modelled trace.) -/
def diffRun (env : Env) (devices : List Device) :
    Except (PyErr × RunAggregates) (Nat × RunAggregates) :=
  match executeFrom env.render (deviceDiff env) emptyAggregates devices with
  | Except.error e => Except.error e
  | Except.ok st => Except.ok (parseResults st, st)

/-- `Homer.commit` (source lines 100-113): run the loop with the commit
handler and map the outcome map to an exit status. -/
def commitRun (env : Env) (message : String) (devices : List Device) :
    Except (PyErr × RunAggregates) (Nat × RunAggregates) :=
  match executeFrom env.render (deviceCommit env message) emptyAggregates devices with
  | Except.error e => Except.error e
  | Except.ok st => Except.ok (parseResults st, st)

/-- The aggregates reached by a top-level run, completed or aborted. -/
def runState : Except (PyErr × RunAggregates) (Nat × RunAggregates) → RunAggregates
  | Except.ok (_, st) => st
  | Except.error (_, st) => st

/-- Spec-side characterization of a diff-run group (from the spec words:
devices whose rendered commit-check returns identical diff text are grouped
under one key, in selection order): the fqdns of the devices that render,
connect, and whose commit-check reports exactly the given diff text. -/
def diffGroupSpec (env : Env) (devices : List Device) (key : String) : List String :=
  devices.filterMap (fun d =>
    match env.render d with
    | Except.error _ => none
    | Except.ok cfg =>
        match env.connect d.fqdn with
        | some _ => none
        | none => if (env.commitCheck d.fqdn cfg).2 = key then some d.fqdn else none)

/-- Fixture device for concrete evaluations. -/
def devA : Device := { fqdn := "a.example.com", role := "core" }

/-- Fixture device for concrete evaluations. -/
def devB : Device := { fqdn := "b.example.com", role := "edge" }

/-- Fixture device whose rendering fails. -/
def devBad : Device := { fqdn := "bad.example.com", role := "core" }

/-- Fixture environment: every collaborator succeeds, rendering fails only
for `devBad`, the operator confirms commits. -/
def envOk : Env :=
  { render := fun d =>
      if d.fqdn = "bad.example.com" then Except.error "render failed"
      else Except.ok ("config-" ++ d.fqdn),
    writeError := fun _ => none,
    connect := fun _ => none,
    commitCheck := fun _ _ => (true, "+set interface;"),
    stagedDiff := fun _ _ => "+set interface;",
    commitFinalize := fun _ _ _ => none,
    isatty := true,
    inputs := fun _ => ["yes"],
    outputBasePath := "/output" }

/-- Fixture environment where opening the connection to `devA` raises a
transport domain error. -/
def envConnFail : Env :=
  { envOk with connect := fun f =>
      if f = "a.example.com" then some "Connection failed" else none }

/-- Fixture environment where writing the output file of `devA` raises an
OSError. -/
def envWriteFail : Env :=
  { envOk with writeError := fun p =>
      if p = "/output/a.example.com.out" then some "No space left on device" else none }

/-- Fixture environment with no interactive terminal. -/
def envNoTty : Env := { envOk with isatty := false }

/-- Fixture environment where the operator answers "no" to every
confirmation. -/
def envAbort : Env := { envOk with inputs := fun _ => ["no"] }

/-- Fixture environment where commit-check reports failure with a non-empty
diff. -/
def envDiffRej : Env :=
  { envOk with commitCheck := fun _ _ => (false, "+rejected;") }

/-- Fixture: the aggregates of the completed diff run of `envOk` over
`[devBad, devA, devB]`. -/
def stRenderFail : RunAggregates :=
  { succ := ["a.example.com", "b.example.com"],
    fail := ["bad.example.com"],
    diffs := [("+set interface;", ["a.example.com", "b.example.com"])],
    events := [Event.log "Generating configuration for bad.example.com",
      Event.log "Device bad.example.com failed to render the template, skipping.",
      Event.log "Generating configuration for a.example.com",
      Event.connectOpen "a.example.com",
      Event.connectClose "a.example.com",
      Event.log "Generating configuration for b.example.com",
      Event.connectOpen "b.example.com",
      Event.connectClose "b.example.com"] }

/-- Fixture: the aggregates of the completed commit run of `envAbort` over
`[devA, devB]`, where the operator aborts both commits. -/
def stCommitAbort : RunAggregates :=
  { succ := [],
    fail := ["a.example.com", "b.example.com"],
    diffs := [("", ["a.example.com", "b.example.com"])],
    events := [Event.log "Generating configuration for a.example.com",
      Event.connectOpen "a.example.com",
      Event.log "Failed to commit on a.example.com",
      Event.connectClose "a.example.com",
      Event.log "Generating configuration for b.example.com",
      Event.connectOpen "b.example.com",
      Event.log "Failed to commit on b.example.com",
      Event.connectClose "b.example.com"] }

/-- The diff-map contribution of one device: `some fqdn` when the device
renders, its handler returns normally and the returned diff text equals the
given key; `none` otherwise. -/
def handlerDiffKey (render : Device → Except String String)
    (handler : Device → String → HandlerResult) (key : String) (d : Device) :
    Option String :=
  match render d with
  | Except.error _ => none
  | Except.ok cfg =>
      match (handler d cfg).result with
      | Except.error _ => none
      | Except.ok (_, diff) => if diff = key then some d.fqdn else none

/-- The loop-entry log line for a device. -/
def genLog (d : Device) : Event :=
  Event.log ("Generating configuration for " ++ d.fqdn)

/-- The render-failure log line for a device. -/
def skipLog (d : Device) : Event :=
  Event.log ("Device " ++ d.fqdn ++ " failed to render the template, skipping.")

theorem executeStep_render_error (render : Device → Except String String)
    (handler : Device → String → HandlerResult) (st : RunAggregates) (d : Device)
    (m : String) (hr : render d = Except.error m) :
    executeStep render handler st d = Except.ok { st with
      fail := st.fail ++ [d.fqdn],
      events := st.events ++ [genLog d, skipLog d] } := by
  simp [executeStep, hr, genLog, skipLog]

theorem executeStep_handler_ok (render : Device → Except String String)
    (handler : Device → String → HandlerResult) (st : RunAggregates) (d : Device)
    (cfg : String) (flag : Bool) (diff : String) (hr : render d = Except.ok cfg)
    (hh : (handler d cfg).result = Except.ok (flag, diff)) :
    executeStep render handler st d = Except.ok { st with
      succ := if flag then st.succ ++ [d.fqdn] else st.succ,
      fail := if flag then st.fail else st.fail ++ [d.fqdn],
      diffs := diffsInsert st.diffs diff d.fqdn,
      events := st.events ++ (genLog d :: (handler d cfg).events) } := by
  simp [executeStep, hr, hh, genLog]

theorem executeStep_handler_raises (render : Device → Except String String)
    (handler : Device → String → HandlerResult) (st : RunAggregates) (d : Device)
    (cfg : String) (e : PyErr) (hr : render d = Except.ok cfg)
    (hh : (handler d cfg).result = Except.error e) :
    executeStep render handler st d = Except.error (e, { st with
      events := st.events ++ (genLog d :: (handler d cfg).events) }) := by
  simp [executeStep, hr, hh, genLog]

/-- Exhaustive characterization of a successful loop iteration. -/
theorem executeStep_ok_cases (render : Device → Except String String)
    (handler : Device → String → HandlerResult) (st : RunAggregates) (d : Device)
    (st1 : RunAggregates) (h : executeStep render handler st d = Except.ok st1) :
    (∃ m, render d = Except.error m ∧ st1 = { st with
        fail := st.fail ++ [d.fqdn],
        events := st.events ++ [genLog d, skipLog d] })
    ∨ (∃ cfg flag diff, render d = Except.ok cfg ∧
        (handler d cfg).result = Except.ok (flag, diff) ∧ st1 = { st with
          succ := if flag then st.succ ++ [d.fqdn] else st.succ,
          fail := if flag then st.fail else st.fail ++ [d.fqdn],
          diffs := diffsInsert st.diffs diff d.fqdn,
          events := st.events ++ (genLog d :: (handler d cfg).events) }) := by
  cases hr : render d with
  | error m =>
      left
      refine ⟨m, rfl, ?_⟩
      rw [executeStep_render_error render handler st d m hr] at h
      exact (Except.ok.inj h).symm
  | ok cfg =>
      right
      cases hh : (handler d cfg).result with
      | error e =>
          rw [executeStep_handler_raises render handler st d cfg e hr hh] at h
          exact absurd h (by simp)
      | ok p =>
          obtain ⟨flag, diff⟩ := p
          refine ⟨cfg, flag, diff, rfl, hh, ?_⟩
          rw [executeStep_handler_ok render handler st d cfg flag diff hr hh] at h
          exact (Except.ok.inj h).symm

/-- Exhaustive characterization of an aborting loop iteration: only a handler
exception aborts, and the aggregates at that point record no outcome for the
device. -/
theorem executeStep_error_cases (render : Device → Except String String)
    (handler : Device → String → HandlerResult) (st : RunAggregates) (d : Device)
    (e : PyErr) (st1 : RunAggregates)
    (h : executeStep render handler st d = Except.error (e, st1)) :
    ∃ cfg, render d = Except.ok cfg ∧ (handler d cfg).result = Except.error e ∧
      st1 = { st with events := st.events ++ (genLog d :: (handler d cfg).events) } := by
  cases hr : render d with
  | error m =>
      rw [executeStep_render_error render handler st d m hr] at h
      exact absurd h (by simp)
  | ok cfg =>
      cases hh : (handler d cfg).result with
      | error e0 =>
          refine ⟨cfg, rfl, ?_⟩
          rw [executeStep_handler_raises render handler st d cfg e0 hr hh] at h
          have h2 := Except.error.inj h
          exact ⟨by rw [hh, (Prod.mk.injEq _ _ _ _).mp h2 |>.1], ((Prod.mk.injEq _ _ _ _).mp h2).2.symm⟩
      | ok p =>
          obtain ⟨flag, diff⟩ := p
          rw [executeStep_handler_ok render handler st d cfg flag diff hr hh] at h
          exact absurd h (by simp)

theorem executeFrom_nil (render : Device → Except String String)
    (handler : Device → String → HandlerResult) (st : RunAggregates) :
    executeFrom render handler st [] = Except.ok st := rfl

theorem executeFrom_cons (render : Device → Except String String)
    (handler : Device → String → HandlerResult) (st : RunAggregates)
    (d : Device) (rest : List Device) :
    executeFrom render handler st (d :: rest) =
      match executeStep render handler st d with
      | Except.error e => Except.error e
      | Except.ok st1 => executeFrom render handler st1 rest := rfl

/-- A completed run adds each device fqdn to the two outcome buckets exactly
as often as it occurs in the selection. -/
theorem executeFrom_count (render : Device → Except String String)
    (handler : Device → String → HandlerResult) :
    ∀ (devices : List Device) (st st' : RunAggregates),
      executeFrom render handler st devices = Except.ok st' →
      ∀ x, st'.succ.count x + st'.fail.count x =
        st.succ.count x + st.fail.count x + (devices.map Device.fqdn).count x := by
  intro devices
  induction devices with
  | nil =>
      intro st st' hok x
      rw [executeFrom_nil] at hok
      injection hok with h
      subst h
      simp
  | cons d rest ih =>
      intro st st' hok x
      rw [executeFrom_cons] at hok
      cases hstep : executeStep render handler st d with
      | error e => rw [hstep] at hok; exact absurd hok (by simp)
      | ok st1 =>
          rw [hstep] at hok
          have h1 := ih st1 st' hok x
          rcases executeStep_ok_cases render handler st d st1 hstep with
            ⟨m, _, hst1⟩ | ⟨cfg, flag, diff, _, _, hst1⟩
          · subst hst1
            rw [h1]
            by_cases hx : d.fqdn = x <;>
              simp [List.count_append, List.count_cons, hx] <;> omega
          · subst hst1
            rw [h1]
            cases flag <;> by_cases hx : d.fqdn = x <;>
              simp [List.count_append, List.count_cons, hx] <;> omega

/-- A completed run grows the outcome buckets by exactly one entry per
selected device. -/
theorem executeFrom_length (render : Device → Except String String)
    (handler : Device → String → HandlerResult) :
    ∀ (devices : List Device) (st st' : RunAggregates),
      executeFrom render handler st devices = Except.ok st' →
      st'.succ.length + st'.fail.length =
        st.succ.length + st.fail.length + devices.length := by
  intro devices
  induction devices with
  | nil =>
      intro st st' hok
      rw [executeFrom_nil] at hok
      injection hok with h
      subst h
      simp
  | cons d rest ih =>
      intro st st' hok
      rw [executeFrom_cons] at hok
      cases hstep : executeStep render handler st d with
      | error e => rw [hstep] at hok; exact absurd hok (by simp)
      | ok st1 =>
          rw [hstep] at hok
          have h1 := ih st1 st' hok
          rcases executeStep_ok_cases render handler st d st1 hstep with
            ⟨m, _, hst1⟩ | ⟨cfg, flag, diff, _, _, hst1⟩
          · subst hst1; rw [h1]; simp; omega
          · subst hst1; rw [h1]; cases flag <;> simp <;> omega

theorem diffsLookup_insert (m : List (String × List String)) (k fqdn key : String) :
    diffsLookup (diffsInsert m k fqdn) key =
      if key = k then diffsLookup m key ++ [fqdn] else diffsLookup m key := by
  induction m with
  | nil =>
      by_cases h : key = k
      · subst h; simp [diffsInsert, diffsLookup]
      · simp [diffsInsert, diffsLookup, h, Ne.symm h]
  | cons e rest ih =>
      obtain ⟨k0, v⟩ := e
      by_cases h0 : k0 = k
      · subst h0
        by_cases h : key = k0
        · subst h; simp [diffsInsert, diffsLookup]
        · simp [diffsInsert, diffsLookup, h, Ne.symm h]
      · by_cases h : key = k0
        · have hkk : ¬key = k := fun hk => h0 (h.symm.trans hk)
          simp [diffsInsert, diffsLookup, h0, hkk, h.symm]
        · simp [diffsInsert, diffsLookup, h0, Ne.symm h, ih]

/-- A completed run extends each diff-map group by exactly the devices whose
handler returned that diff text, in selection order. -/
theorem executeFrom_diffs (render : Device → Except String String)
    (handler : Device → String → HandlerResult) :
    ∀ (devices : List Device) (st st' : RunAggregates),
      executeFrom render handler st devices = Except.ok st' →
      ∀ key, diffsLookup st'.diffs key =
        diffsLookup st.diffs key ++
          devices.filterMap (handlerDiffKey render handler key) := by
  intro devices
  induction devices with
  | nil =>
      intro st st' hok key
      rw [executeFrom_nil] at hok
      injection hok with h
      subst h
      simp
  | cons d rest ih =>
      intro st st' hok key
      rw [executeFrom_cons] at hok
      cases hstep : executeStep render handler st d with
      | error e => rw [hstep] at hok; exact absurd hok (by simp)
      | ok st1 =>
          rw [hstep] at hok
          have h1 := ih st1 st' hok key
          rcases executeStep_ok_cases render handler st d st1 hstep with
            ⟨m, hr, hst1⟩ | ⟨cfg, flag, diff, hr, hh, hst1⟩
          · subst hst1
            rw [h1]
            simp [handlerDiffKey, hr]
          · subst hst1
            rw [h1]
            simp only [List.filterMap_cons, handlerDiffKey, hr, hh]
            by_cases hk : diff = key
            · subst hk
              simp [diffsLookup_insert]
            · simp [diffsLookup_insert, Ne.symm hk, hk]

/-- Every event a run adds to the trace is either a loop log line or an event
of some handler invocation; in particular, whatever property holds of log
lines and of all handler events holds of every added event, on completed and
on aborted runs alike. -/
theorem executeFrom_events (render : Device → Except String String)
    (handler : Device → String → HandlerResult) (P : Event → Prop)
    (hlog : ∀ m, P (Event.log m))
    (hhandler : ∀ d cfg e, e ∈ (handler d cfg).events → P e) :
    ∀ (devices : List Device) (st : RunAggregates), ∃ extra,
      (resultState (executeFrom render handler st devices)).events =
        st.events ++ extra ∧ ∀ e ∈ extra, P e := by
  intro devices
  induction devices with
  | nil =>
      intro st
      exact ⟨[], by simp [executeFrom_nil, resultState], by simp⟩
  | cons d rest ih =>
      intro st
      rw [executeFrom_cons]
      cases hstep : executeStep render handler st d with
      | error e =>
          obtain ⟨pe, st1⟩ := e
          obtain ⟨cfg, hr, hh, hst1⟩ :=
            executeStep_error_cases render handler st d pe st1 hstep
          refine ⟨genLog d :: (handler d cfg).events, ?_, ?_⟩
          · simp [resultState, hst1]
          · intro e he
            rcases List.mem_cons.mp he with h | h
            · subst h; exact hlog _
            · exact hhandler _ _ _ h
      | ok st1 =>
          obtain ⟨extra, hev, hP⟩ := ih st1
          rcases executeStep_ok_cases render handler st d st1 hstep with
            ⟨m, hr, hst1⟩ | ⟨cfg, flag, diff, hr, hh, hst1⟩
          · refine ⟨[genLog d, skipLog d] ++ extra, ?_, ?_⟩
            · rw [hev, hst1]; simp
            · intro e he
              rcases List.mem_append.mp he with h | h
              · rcases List.mem_cons.mp h with h1 | h1
                · subst h1; exact hlog _
                · have : e = skipLog d := by simpa using h1
                  subst this; exact hlog _
              · exact hP _ h
          · refine ⟨(genLog d :: (handler d cfg).events) ++ extra, ?_, ?_⟩
            · rw [hev, hst1]; simp
            · intro e he
              rcases List.mem_append.mp he with h | h
              · rcases List.mem_cons.mp h with h1 | h1
                · subst h1; exact hlog _
                · exact hhandler _ _ _ h1
              · exact hP _ h

/-- The outcome buckets only grow during a run, completed or aborted. -/
theorem executeFrom_extends (render : Device → Except String String)
    (handler : Device → String → HandlerResult) :
    ∀ (devices : List Device) (st : RunAggregates), ∃ s f,
      (resultState (executeFrom render handler st devices)).succ = st.succ ++ s ∧
      (resultState (executeFrom render handler st devices)).fail = st.fail ++ f := by
  intro devices
  induction devices with
  | nil =>
      intro st
      exact ⟨[], [], by simp [executeFrom_nil, resultState], by simp [executeFrom_nil, resultState]⟩
  | cons d rest ih =>
      intro st
      rw [executeFrom_cons]
      cases hstep : executeStep render handler st d with
      | error e =>
          obtain ⟨pe, st1⟩ := e
          obtain ⟨cfg, hr, hh, hst1⟩ :=
            executeStep_error_cases render handler st d pe st1 hstep
          exact ⟨[], [], by simp [resultState, hst1], by simp [resultState, hst1]⟩
      | ok st1 =>
          obtain ⟨s, f, hs, hf⟩ := ih st1
          rcases executeStep_ok_cases render handler st d st1 hstep with
            ⟨m, hr, hst1⟩ | ⟨cfg, flag, diff, hr, hh, hst1⟩
          · exact ⟨s, d.fqdn :: f, by rw [hs, hst1], by rw [hf, hst1]; simp⟩
          · cases flag
            · exact ⟨s, d.fqdn :: f, by rw [hs, hst1]; simp, by rw [hf, hst1]; simp⟩
            · exact ⟨d.fqdn :: s, f, by rw [hs, hst1]; simp, by rw [hf, hst1]; simp⟩

/-- Every selected device of a completed run lands in one of the two outcome
buckets. -/
theorem executeFrom_mem (render : Device → Except String String)
    (handler : Device → String → HandlerResult) (devices : List Device)
    (st st' : RunAggregates)
    (hok : executeFrom render handler st devices = Except.ok st') :
    ∀ d ∈ devices, d.fqdn ∈ st'.succ ∨ d.fqdn ∈ st'.fail := by
  intro d hd
  have hc := executeFrom_count render handler devices st st' hok d.fqdn
  have hpos : 0 < (devices.map Device.fqdn).count d.fqdn :=
    List.count_pos_iff.mpr (List.mem_map_of_mem _ hd)
  by_contra hno
  push_neg at hno
  obtain ⟨h1, h2⟩ := hno
  have e1 : st'.succ.count d.fqdn = 0 := List.count_eq_zero.mpr h1
  have e2 : st'.fail.count d.fqdn = 0 := List.count_eq_zero.mpr h2
  omega

theorem runState_generate (env : Env) (outDir : Option (List DirEntry))
    (devices : List Device) :
    runState (generateRun env outDir devices) =
      resultState (executeFrom env.render (deviceGenerate env)
        { emptyAggregates with events := (prepareOutDir outDir).2 } devices) := by
  unfold generateRun
  cases executeFrom env.render (deviceGenerate env)
      { emptyAggregates with events := (prepareOutDir outDir).2 } devices with
  | error e => obtain ⟨pe, st⟩ := e; rfl
  | ok st => rfl

theorem runState_diff (env : Env) (devices : List Device) :
    runState (diffRun env devices) =
      resultState (executeFrom env.render (deviceDiff env) emptyAggregates devices) := by
  unfold diffRun
  cases executeFrom env.render (deviceDiff env) emptyAggregates devices with
  | error e => obtain ⟨pe, st⟩ := e; rfl
  | ok st => rfl

theorem runState_commit (env : Env) (message : String) (devices : List Device) :
    runState (commitRun env message devices) =
      resultState (executeFrom env.render (deviceCommit env message)
        emptyAggregates devices) := by
  unfold commitRun
  cases executeFrom env.render (deviceCommit env message) emptyAggregates devices with
  | error e => obtain ⟨pe, st⟩ := e; rfl
  | ok st => rfl

theorem promptLoop_consumed_le (n : Nat) :
    ∀ inputs : List String, (promptLoop n inputs).2.2 ≤ n := by
  induction n with
  | zero => intro inputs; simp [promptLoop]
  | succ k ih =>
      intro inputs
      by_cases hy : inputs.head?.getD "" = "yes"
      · simp [promptLoop, hy]
      · by_cases hn : inputs.head?.getD "" = "no"
        · simp [promptLoop, hy, hn]
        · have h2 := ih inputs.tail
          cases hpl : promptLoop k inputs.tail with
          | mk o pc =>
              obtain ⟨p, c⟩ := pc
              rw [hpl] at h2
              simp only at h2
              simp [promptLoop, hy, hn, hpl]
              omega

/-- C6: the commit-confirmation prompt allows at most 2 attempts: a "yes"
response confirms and the callback returns normally; a "no" response aborts
with the operator-abort reason "Commit aborted", including when it follows
one invalid answer; any other response consumes an attempt without aborting;
and after the 2nd consumed attempt without a valid "yes"/"no" the callback
aborts with the distinct reason "Too many invalid answers, commit aborted". -/
theorem commit_confirmation_protocol (fqdn diff i1 i2 : String)
    (rest inputs : List String) (h1y : i1 ≠ "yes") (h1n : i1 ≠ "no") :
    (commitCallback true ("yes" :: i2 :: rest) fqdn diff).outcome = Except.ok ()
  ∧ (commitCallback true ("no" :: i2 :: rest) fqdn diff).outcome =
      Except.error commitAbortedMsg
  ∧ (commitCallback true (i1 :: "no" :: rest) fqdn diff).outcome =
      Except.error commitAbortedMsg
  ∧ (commitCallback true (i1 :: "yes" :: rest) fqdn diff).outcome = Except.ok ()
  ∧ (i2 ≠ "yes" → i2 ≠ "no" →
      (commitCallback true (i1 :: i2 :: rest) fqdn diff).outcome =
        Except.error tooManyMsg)
  ∧ (commitCallback true inputs fqdn diff).consumed ≤ 2 := by
  refine ⟨?_, ?_, ?_, ?_, ?_, ?_⟩
  · simp [commitCallback, promptLoop]
  · simp [commitCallback, promptLoop]
  · simp [commitCallback, promptLoop, h1y, h1n]
  · simp [commitCallback, promptLoop, h1y, h1n]
  · intro h2y h2n
    simp [commitCallback, promptLoop, h1y, h1n, h2y, h2n]
  · have h := promptLoop_consumed_le 2 inputs
    unfold commitCallback
    cases hpl : promptLoop 2 inputs with
    | mk o pc =>
        obtain ⟨p, c⟩ := pc
        rw [hpl] at h
        simpa using h

/-- C6 witness: two invalid answers abort with the too-many-invalid-answers
reason, while an invalid answer followed by "no" aborts with the
operator-abort reason. -/
theorem commit_confirmation_protocol_witness :
    (("maybe" : String) ≠ "yes" ∧ ("maybe" : String) ≠ "no")
  ∧ (commitCallback true ["maybe", "nah"] "a.example.com" "+set interface;").outcome =
      Except.error tooManyMsg
  ∧ (commitCallback true ["maybe", "no"] "a.example.com" "+set interface;").outcome =
      Except.error commitAbortedMsg := by
  refine ⟨⟨by decide, by decide⟩, ?_, ?_⟩
  · exact (commit_confirmation_protocol "a.example.com" "+set interface;" "maybe" "nah"
      [] [] (by decide) (by decide)).2.2.2.2.1 (by decide) (by decide)
  · exact (commit_confirmation_protocol "a.example.com" "+set interface;" "maybe" "nah"
      [] [] (by decide) (by decide)).2.2.1

/-- C7: when the process has no interactive terminal, the confirmation
callback aborts immediately with the not-a-TTY domain error, printing nothing
and reading no input; the commit handler converts this into a per-device
failure with empty diff text, and the run continues with the remaining
devices from the aggregates extended by that failure. -/
theorem non_interactive_commit_fails_device (env : Env) (st : RunAggregates)
    (D : Device) (post : List Device) (cfg message : String)
    (hatty : env.isatty = false) (hconn : env.connect D.fqdn = none)
    (hr : env.render D = Except.ok cfg) :
    (∀ inputs fqdn diff, commitCallback false inputs fqdn diff =
        { outcome := Except.error notATtyMsg, printed := [], consumed := 0 })
  ∧ (deviceCommit env message D cfg).result = Except.ok (false, "")
  ∧ executeFrom env.render (deviceCommit env message) st (D :: post) =
      executeFrom env.render (deviceCommit env message)
        { st with
            fail := st.fail ++ [D.fqdn],
            diffs := diffsInsert st.diffs "" D.fqdn,
            events := st.events ++ [genLog D, Event.connectOpen D.fqdn,
              Event.log ("Failed to commit on " ++ D.fqdn),
              Event.connectClose D.fqdn] } post := by
  have hdc : deviceCommit env message D cfg =
      { result := Except.ok (false, ""),
        events := [Event.connectOpen D.fqdn,
          Event.log ("Failed to commit on " ++ D.fqdn),
          Event.connectClose D.fqdn] } := by
    simp [deviceCommit, transportCommit, hconn, hatty, commitCallback]
  refine ⟨?_, ?_, ?_⟩
  · intro inputs fqdn diff
    simp [commitCallback]
  · rw [hdc]
  · rw [executeFrom_cons,
      executeStep_handler_ok env.render (deviceCommit env message) st D cfg false ""
        hr (by rw [hdc])]
    simp [hdc, genLog]

/-- C7 witness: in the fixture environment with no TTY, the callback result
and the per-device failure at a concrete device. -/
theorem non_interactive_commit_fails_device_witness :
    (envNoTty.isatty = false ∧ envNoTty.connect "a.example.com" = none ∧
      envNoTty.render devA = Except.ok "config-a.example.com")
  ∧ (deviceCommit envNoTty "-" devA "config-a.example.com").result =
      Except.ok (false, "") := by
  refine ⟨⟨by decide, by decide, by decide⟩, ?_⟩
  exact (non_interactive_commit_fails_device envNoTty emptyAggregates devA [devB]
    "config-a.example.com" "-" (by decide) (by decide) (by decide)).2.1

/-- C3: a device whose assembly or rendering fails with a domain error is
recorded in the failure bucket, only the two log lines are added to the trace
(the handler is never invoked, so no output file is written and no connection
is opened), and the run over the subsequent devices continues exactly as from
the updated aggregates; when the rest of the run completes, the device is in
the failure bucket and every subsequent device lands in an outcome bucket. -/
theorem render_failure_isolated (render : Device → Except String String)
    (handler : Device → String → HandlerResult) (st : RunAggregates)
    (D : Device) (post : List Device) (m : String)
    (hD : render D = Except.error m) :
    executeFrom render handler st (D :: post) =
      executeFrom render handler
        { st with
            fail := st.fail ++ [D.fqdn],
            events := st.events ++ [genLog D, skipLog D] } post
  ∧ (∀ st', executeFrom render handler st (D :: post) = Except.ok st' →
      D.fqdn ∈ st'.fail ∧ ∀ d ∈ post, d.fqdn ∈ st'.succ ∨ d.fqdn ∈ st'.fail) := by
  have hstep := executeStep_render_error render handler st D m hD
  have heq : executeFrom render handler st (D :: post) =
      executeFrom render handler
        { st with
            fail := st.fail ++ [D.fqdn],
            events := st.events ++ [genLog D, skipLog D] } post := by
    rw [executeFrom_cons, hstep]
  refine ⟨heq, ?_⟩
  intro st' hok
  rw [heq] at hok
  constructor
  · obtain ⟨s, f, hs, hf⟩ := executeFrom_extends render handler post
      { st with
          fail := st.fail ++ [D.fqdn],
          events := st.events ++ [genLog D, skipLog D] }
    rw [hok] at hf
    simp only [resultState] at hf
    rw [hf]
    simp
  · exact executeFrom_mem render handler post _ st' hok

/-- C3 witness: a concrete run where the first device fails to render, lands
in the failure bucket, and the two subsequent devices are still processed
into outcome buckets. -/
theorem render_failure_isolated_witness :
    envOk.render devBad = Except.error "render failed"
  ∧ devBad.fqdn ∈ stRenderFail.fail
  ∧ (devA.fqdn ∈ stRenderFail.succ ∨ devA.fqdn ∈ stRenderFail.fail)
  ∧ (devB.fqdn ∈ stRenderFail.succ ∨ devB.fqdn ∈ stRenderFail.fail) := by
  have h2 := (render_failure_isolated envOk.render (deviceDiff envOk) emptyAggregates
    devBad [devA, devB] "render failed" (by decide)).2 stRenderFail (by decide)
  exact ⟨by decide, h2.1, h2.2 devA (by decide), h2.2 devB (by decide)⟩

/-- C4: in a completed run over a selection of pairwise-distinct fqdns, every
selected device fqdn lands in exactly one outcome bucket (success xor
failure), the two buckets are disjoint, and their sizes sum to the selection
size. -/
theorem outcome_partition (render : Device → Except String String)
    (handler : Device → String → HandlerResult) (devices : List Device)
    (st' : RunAggregates)
    (hok : executeFrom render handler emptyAggregates devices = Except.ok st')
    (hnd : (devices.map Device.fqdn).Nodup) :
    st'.succ.length + st'.fail.length = devices.length
  ∧ (∀ x, ¬(x ∈ st'.succ ∧ x ∈ st'.fail))
  ∧ (∀ d ∈ devices, (d.fqdn ∈ st'.succ ∧ d.fqdn ∉ st'.fail) ∨
      (d.fqdn ∈ st'.fail ∧ d.fqdn ∉ st'.succ)) := by
  have hlen := executeFrom_length render handler devices emptyAggregates st' hok
  have hcnt := executeFrom_count render handler devices emptyAggregates st' hok
  have hdisj : ∀ x, ¬(x ∈ st'.succ ∧ x ∈ st'.fail) := by
    intro x hx
    obtain ⟨hxs, hxf⟩ := hx
    have h1 : 0 < st'.succ.count x := List.count_pos_iff.mpr hxs
    have h2 : 0 < st'.fail.count x := List.count_pos_iff.mpr hxf
    have h3 := hcnt x
    have h4 : (devices.map Device.fqdn).count x ≤ 1 :=
      List.nodup_iff_count_le_one.mp hnd x
    simp [emptyAggregates] at h3
    omega
  refine ⟨?_, hdisj, ?_⟩
  · simp [emptyAggregates] at hlen
    omega
  · intro d hd
    rcases executeFrom_mem render handler devices emptyAggregates st' hok d hd with h | h
    · exact Or.inl ⟨h, fun hf => hdisj d.fqdn ⟨h, hf⟩⟩
    · exact Or.inr ⟨h, fun hs => hdisj d.fqdn ⟨hs, h⟩⟩

/-- C4 witness: the concrete three-device run partitions the selection into
the two buckets. -/
theorem outcome_partition_witness :
    stRenderFail.succ.length + stRenderFail.fail.length =
      ([devBad, devA, devB] : List Device).length
  ∧ ¬("a.example.com" ∈ stRenderFail.succ ∧ "a.example.com" ∈ stRenderFail.fail)
  ∧ ((devA.fqdn ∈ stRenderFail.succ ∧ devA.fqdn ∉ stRenderFail.fail) ∨
      (devA.fqdn ∈ stRenderFail.fail ∧ devA.fqdn ∉ stRenderFail.succ)) := by
  have h := outcome_partition envOk.render (deviceDiff envOk) [devBad, devA, devB]
    stRenderFail (by decide) (by decide)
  exact ⟨h.1, h.2.1 "a.example.com", h.2.2 devA (by decide)⟩

/-- C5: each of the three actions maps a completed run to process exit
status 0 exactly when the failure bucket is empty and exactly 1 when at least
one device failed; an empty selection is a successful trivial run with empty
aggregates (for generate, the trace holds only the directory preparation). -/
theorem action_exit_status (env : Env) (message : String) :
    (∀ outDir devices c st, generateRun env outDir devices = Except.ok (c, st) →
      ((c = 0 ↔ st.fail = []) ∧ (c = 1 ↔ st.fail ≠ [])))
  ∧ (∀ devices c st, diffRun env devices = Except.ok (c, st) →
      ((c = 0 ↔ st.fail = []) ∧ (c = 1 ↔ st.fail ≠ [])))
  ∧ (∀ devices c st, commitRun env message devices = Except.ok (c, st) →
      ((c = 0 ↔ st.fail = []) ∧ (c = 1 ↔ st.fail ≠ [])))
  ∧ (∀ outDir, generateRun env outDir [] =
      Except.ok (0, { emptyAggregates with events := (prepareOutDir outDir).2 }))
  ∧ diffRun env [] = Except.ok (0, emptyAggregates)
  ∧ commitRun env message [] = Except.ok (0, emptyAggregates) := by
  have hpr : ∀ st : RunAggregates,
      (parseResults st = 0 ↔ st.fail = []) ∧ (parseResults st = 1 ↔ st.fail ≠ []) := by
    intro st
    by_cases h : st.fail = [] <;> simp [parseResults, h]
  refine ⟨?_, ?_, ?_, ?_, ?_, ?_⟩
  · intro outDir devices c st hok
    unfold generateRun at hok
    cases hw : executeFrom env.render (deviceGenerate env)
        { emptyAggregates with events := (prepareOutDir outDir).2 } devices with
    | error e => rw [hw] at hok; exact absurd hok (by simp)
    | ok st0 =>
        rw [hw] at hok
        simp only at hok
        obtain ⟨hc, hst⟩ := Prod.mk.injEq _ _ _ _ ▸ Except.ok.inj hok
        subst hst; subst hc
        exact hpr st0
  · intro devices c st hok
    unfold diffRun at hok
    cases hw : executeFrom env.render (deviceDiff env) emptyAggregates devices with
    | error e => rw [hw] at hok; exact absurd hok (by simp)
    | ok st0 =>
        rw [hw] at hok
        simp only at hok
        obtain ⟨hc, hst⟩ := Prod.mk.injEq _ _ _ _ ▸ Except.ok.inj hok
        subst hst; subst hc
        exact hpr st0
  · intro devices c st hok
    unfold commitRun at hok
    cases hw : executeFrom env.render (deviceCommit env message) emptyAggregates devices with
    | error e => rw [hw] at hok; exact absurd hok (by simp)
    | ok st0 =>
        rw [hw] at hok
        simp only at hok
        obtain ⟨hc, hst⟩ := Prod.mk.injEq _ _ _ _ ▸ Except.ok.inj hok
        subst hst; subst hc
        exact hpr st0
  · intro outDir
    simp [generateRun, executeFrom_nil, parseResults, emptyAggregates]
  · simp [diffRun, executeFrom_nil, parseResults, emptyAggregates]
  · simp [commitRun, executeFrom_nil, parseResults, emptyAggregates]

/-- C5 witness: a diff run with one failing device exits 1, one with only
successes exits 0, and the empty selection exits 0. -/
theorem action_exit_status_witness :
    diffRun envOk [devBad, devA, devB] = Except.ok (1, stRenderFail)
  ∧ ((1 : Nat) = 1 ↔ stRenderFail.fail ≠ [])
  ∧ diffRun envOk [] = Except.ok (0, emptyAggregates) := by
  have h := action_exit_status envOk "-"
  refine ⟨by decide, ?_, h.2.2.2.2.1⟩
  exact (h.2.1 [devBad, devA, devB] 1 stRenderFail (by decide)).2

/-- C8: in a completed diff run, every diff-map group, keyed by the raw diff
text, holds exactly the devices whose commit-check reported that byte-exact
text, listed in selection (insertion) order. -/
theorem diff_grouping (env : Env) (devices : List Device) (c : Nat)
    (st : RunAggregates) (hok : diffRun env devices = Except.ok (c, st)) :
    ∀ key, diffsLookup st.diffs key = diffGroupSpec env devices key := by
  intro key
  unfold diffRun at hok
  cases hw : executeFrom env.render (deviceDiff env) emptyAggregates devices with
  | error e => rw [hw] at hok; exact absurd hok (by simp)
  | ok st0 =>
      rw [hw] at hok
      simp only at hok
      obtain ⟨hc, hst⟩ := Prod.mk.injEq _ _ _ _ ▸ Except.ok.inj hok
      subst hst
      have hd := executeFrom_diffs env.render (deviceDiff env) devices emptyAggregates
        st0 hw key
      rw [hd]
      have hfun : handlerDiffKey env.render (deviceDiff env) key =
          (fun d => match env.render d with
            | Except.error _ => none
            | Except.ok cfg =>
                match env.connect d.fqdn with
                | some _ => none
                | none =>
                    if (env.commitCheck d.fqdn cfg).2 = key then some d.fqdn
                    else none) := by
        funext d
        cases hr : env.render d with
        | error m => simp [handlerDiffKey, hr]
        | ok cfg =>
            cases hc2 : env.connect d.fqdn with
            | some m => simp [handlerDiffKey, deviceDiff, hr, hc2]
            | none =>
                cases hcc : env.commitCheck d.fqdn cfg with
                | mk flag dtxt => simp [handlerDiffKey, deviceDiff, hr, hc2, hcc]
      rw [hfun]
      simp [emptyAggregates, diffsLookup, diffGroupSpec]

/-- C8 witness: in the concrete three-device diff run the two connecting
devices report byte-identical diff text and are grouped under that single
key, in selection order. -/
theorem diff_grouping_witness :
    diffsLookup stRenderFail.diffs "+set interface;" =
      diffGroupSpec envOk [devBad, devA, devB] "+set interface;" :=
  diff_grouping envOk [devBad, devA, devB] 1 stRenderFail (by decide) "+set interface;"

theorem handlerDiffKey_some (render : Device → Except String String)
    (handler : Device → String → HandlerResult) (key : String) (d : Device)
    (x : String) (h : handlerDiffKey render handler key d = some x) :
    x = d.fqdn ∧ ∃ cfg flag, render d = Except.ok cfg ∧
      (handler d cfg).result = Except.ok (flag, key) := by
  cases hr : render d with
  | error m => simp [handlerDiffKey, hr] at h
  | ok cfg =>
      cases hh : (handler d cfg).result with
      | error e => simp [handlerDiffKey, hr, hh] at h
      | ok p =>
          obtain ⟨flag, diff⟩ := p
          by_cases hk : diff = key
          · subst hk
            simp [handlerDiffKey, hr, hh] at h
            exact ⟨h.symm, cfg, flag, rfl, hh⟩
          · simp [handlerDiffKey, hr, hh, hk] at h

/-- C9: in a completed run over pairwise-distinct fqdns, a device whose
rendering succeeds is appended to exactly one diff-map group — the one keyed
by the string its handler returned, even when the handler reports failure —
while a device whose assembly or rendering fails appears in no diff-map
group at all. -/
theorem diff_map_exactly_one_group (render : Device → Except String String)
    (handler : Device → String → HandlerResult) (devices : List Device)
    (st' : RunAggregates) (D : Device)
    (hok : executeFrom render handler emptyAggregates devices = Except.ok st')
    (hnd : (devices.map Device.fqdn).Nodup) (hD : D ∈ devices) :
    (∀ m, render D = Except.error m → ∀ key, D.fqdn ∉ diffsLookup st'.diffs key)
  ∧ (∀ cfg flag diff, render D = Except.ok cfg →
      (handler D cfg).result = Except.ok (flag, diff) →
      (D.fqdn ∈ diffsLookup st'.diffs diff ∧
        ∀ key, key ≠ diff → D.fqdn ∉ diffsLookup st'.diffs key)) := by
  have hchar : ∀ key, diffsLookup st'.diffs key =
      devices.filterMap (handlerDiffKey render handler key) := by
    intro key
    have h := executeFrom_diffs render handler devices emptyAggregates st' hok key
    simpa [emptyAggregates, diffsLookup] using h
  constructor
  · intro m hr key hmem
    rw [hchar key, List.mem_filterMap] at hmem
    obtain ⟨d', hd', hsome⟩ := hmem
    obtain ⟨hx, cfg, flag, hr', _⟩ :=
      handlerDiffKey_some render handler key d' D.fqdn hsome
    have hde : d' = D := List.inj_on_of_nodup_map hnd hd' hD hx.symm
    subst hde
    rw [hr] at hr'
    exact Except.noConfusion hr'
  · intro cfg flag diff hr hh
    constructor
    · rw [hchar diff, List.mem_filterMap]
      exact ⟨D, hD, by simp [handlerDiffKey, hr, hh]⟩
    · intro key hkey hmem
      rw [hchar key, List.mem_filterMap] at hmem
      obtain ⟨d', hd', hsome⟩ := hmem
      obtain ⟨hx, cfg', flag', hr', hh'⟩ :=
        handlerDiffKey_some render handler key d' D.fqdn hsome
      have hde : d' = D := List.inj_on_of_nodup_map hnd hd' hD hx.symm
      subst hde
      rw [hr] at hr'
      have hcfg : cfg' = cfg := (Except.ok.inj hr').symm
      subst hcfg
      rw [hh] at hh'
      have hp := Except.ok.inj hh'
      have : key = diff := ((Prod.mk.injEq _ _ _ _).mp hp.symm).2
      exact hkey this

/-- C9 witness: in the concrete aborted-commit run, the failing device is
grouped under the empty-string diff key and under no other key. -/
theorem diff_map_exactly_one_group_witness :
    devA.fqdn ∈ diffsLookup stCommitAbort.diffs ""
  ∧ devA.fqdn ∉ diffsLookup stCommitAbort.diffs "+set interface;" := by
  have h := (diff_map_exactly_one_group envAbort.render (deviceCommit envAbort "-")
    [devA, devB] stCommitAbort devA (by decide) (by decide) (by decide)).2
    "config-a.example.com" false "" (by decide) (by decide)
  exact ⟨h.1, h.2 "+set interface;" (by decide)⟩

/-- C10: the generate run prepares the output directory exactly once, before
any device is processed: the directory is created (with parents) if absent,
and exactly the regular files directly inside it whose suffix is ".out" are
purged, sub-directories and other extensions surviving untouched; the rest of
the generate trace contains no preparation effect, and diff and commit runs
perform no directory creation or purge at all. -/
theorem out_dir_frame (env : Env) (message : String) (entries : List DirEntry) :
    prepareOutDir none = ([], [Event.mkdir])
  ∧ (prepareOutDir (some entries)).1 =
      entries.filter (fun e => !(e.isFile && (pathSuffix e.name == ".out")))
  ∧ (prepareOutDir (some entries)).2 =
      Event.mkdir ::
        (entries.filter (fun e => e.isFile && (pathSuffix e.name == ".out"))).map
          (fun e => Event.purge e.name)
  ∧ (∀ outDir devices, ∃ extra,
      (runState (generateRun env outDir devices)).events =
        (prepareOutDir outDir).2 ++ extra ∧ ∀ e ∈ extra, e.isDirPrep = false)
  ∧ (∀ devices, ∀ e ∈ (runState (diffRun env devices)).events, e.isDirPrep = false)
  ∧ (∀ devices, ∀ e ∈ (runState (commitRun env message devices)).events,
      e.isDirPrep = false) := by
  have hgen : ∀ d cfg e, e ∈ (deviceGenerate env d cfg).events →
      Event.isDirPrep e = false := by
    intro d cfg e he
    unfold deviceGenerate at he
    cases hw : env.writeError (outputPath env d) with
    | some m => rw [hw] at he; simp at he
    | none =>
        rw [hw] at he
        simp at he
        rcases he with h | h <;> subst h <;> rfl
  have hdiff : ∀ d cfg e, e ∈ (deviceDiff env d cfg).events →
      Event.isDirPrep e = false := by
    intro d cfg e he
    unfold deviceDiff at he
    cases hw : env.connect d.fqdn with
    | some m => rw [hw] at he; simp at he
    | none =>
        rw [hw] at he
        simp at he
        rcases he with h | h <;> subst h <;> rfl
  have hcommit : ∀ d cfg e, e ∈ (deviceCommit env message d cfg).events →
      Event.isDirPrep e = false := by
    intro d cfg e he
    unfold deviceCommit at he
    cases hw : env.connect d.fqdn with
    | some m => rw [hw] at he; simp at he
    | none =>
        rw [hw] at he
        cases htc : transportCommit env d.fqdn cfg message with
        | ok u =>
            rw [htc] at he
            simp at he
            rcases he with h | h <;> subst h <;> rfl
        | error m =>
            rw [htc] at he
            simp at he
            rcases he with h | h | h <;> subst h <;> rfl
  refine ⟨rfl, rfl, rfl, ?_, ?_, ?_⟩
  · intro outDir devices
    obtain ⟨extra, hev, hP⟩ := executeFrom_events env.render (deviceGenerate env)
      (fun e => Event.isDirPrep e = false) (fun m => rfl) hgen devices
      { emptyAggregates with events := (prepareOutDir outDir).2 }
    rw [runState_generate]
    exact ⟨extra, by simpa [emptyAggregates] using hev, hP⟩
  · intro devices e he
    obtain ⟨extra, hev, hP⟩ := executeFrom_events env.render (deviceDiff env)
      (fun e => Event.isDirPrep e = false) (fun m => rfl) hdiff devices emptyAggregates
    rw [runState_diff, hev] at he
    simp [emptyAggregates] at he
    exact hP e he
  · intro devices e he
    obtain ⟨extra, hev, hP⟩ := executeFrom_events env.render (deviceCommit env message)
      (fun e => Event.isDirPrep e = false) (fun m => rfl) hcommit devices emptyAggregates
    rw [runState_commit, hev] at he
    simp [emptyAggregates] at he
    exact hP e he

/-- C10 witness: on a concrete directory listing, preparation purges exactly
the regular ".out" files (sparing a directory named with the extension and a
dot-file whose suffix is empty), and a concrete diff-run event is not a
preparation effect. -/
theorem out_dir_frame_witness :
    (prepareOutDir (some [{ name := "a.out", isFile := true },
        { name := "keep.txt", isFile := true },
        { name := "sub.out", isFile := false },
        { name := ".out", isFile := true }])).1 =
      [{ name := "keep.txt", isFile := true },
        { name := "sub.out", isFile := false },
        { name := ".out", isFile := true }]
  ∧ (prepareOutDir (some [{ name := "a.out", isFile := true },
        { name := "keep.txt", isFile := true },
        { name := "sub.out", isFile := false },
        { name := ".out", isFile := true }])).2 =
      [Event.mkdir, Event.purge "a.out"]
  ∧ Event.isDirPrep (Event.connectOpen "a.example.com") = false := by
  refine ⟨?_, ?_, ?_⟩
  · rw [(out_dir_frame envOk "-" [{ name := "a.out", isFile := true },
        { name := "keep.txt", isFile := true },
        { name := "sub.out", isFile := false },
        { name := ".out", isFile := true }]).2.1]
    decide
  · rw [(out_dir_frame envOk "-" [{ name := "a.out", isFile := true },
        { name := "keep.txt", isFile := true },
        { name := "sub.out", isFile := false },
        { name := ".out", isFile := true }]).2.2.1]
    decide
  · exact (out_dir_frame envOk "-" []).2.2.2.2.1 [devA]
      (Event.connectOpen "a.example.com") (by decide)

/-- C1 counterexample: in a diff run over two devices where opening the
connection to the first raises a transport domain error, the run aborts with
that error: the failure bucket of the aggregates at the abort point is empty
(the device was not recorded as a failure) and the second device was never
processed — contradicting the claim that a transport domain error raised
during the action handler is recorded per-device and never aborts the
batch. -/
theorem transport_error_aborts_cex :
    diffRun envConnFail [devA, devB] =
      Except.error (PyErr.homerError "Connection failed",
        { succ := [], fail := [], diffs := [],
          events := [Event.log "Generating configuration for a.example.com"] }) := by
  decide

/-- C1 (amended): a transport domain error raised inside the commit
operation (including confirmation aborts) is caught by the commit handler,
logged, recorded as that device failure (with empty diff text), and the run
continues; a commit-check failure is reported through the returned pair,
recorded as that device failure, and the run continues; but a transport
domain error raised while opening the connection is not caught anywhere:
it propagates and aborts the batch, with no outcome recorded for the device
and the remaining devices unprocessed. -/
theorem transport_error_handling (env : Env) (st : RunAggregates) (D : Device)
    (post : List Device) (cfg message : String)
    (hr : env.render D = Except.ok cfg) :
    (∀ m, env.connect D.fqdn = none →
      transportCommit env D.fqdn cfg message = Except.error m →
      executeFrom env.render (deviceCommit env message) st (D :: post) =
        executeFrom env.render (deviceCommit env message)
          { st with
              fail := st.fail ++ [D.fqdn],
              diffs := diffsInsert st.diffs "" D.fqdn,
              events := st.events ++ [genLog D, Event.connectOpen D.fqdn,
                Event.log ("Failed to commit on " ++ D.fqdn),
                Event.connectClose D.fqdn] } post)
  ∧ (∀ flag dtxt, env.connect D.fqdn = none →
      env.commitCheck D.fqdn cfg = (flag, dtxt) →
      executeFrom env.render (deviceDiff env) st (D :: post) =
        executeFrom env.render (deviceDiff env)
          { st with
              succ := if flag then st.succ ++ [D.fqdn] else st.succ,
              fail := if flag then st.fail else st.fail ++ [D.fqdn],
              diffs := diffsInsert st.diffs dtxt D.fqdn,
              events := st.events ++ [genLog D, Event.connectOpen D.fqdn,
                Event.connectClose D.fqdn] } post)
  ∧ (∀ m, env.connect D.fqdn = some m →
      executeFrom env.render (deviceDiff env) st (D :: post) =
        Except.error (PyErr.homerError m,
          { st with events := st.events ++ [genLog D] }))
  ∧ (∀ m, env.connect D.fqdn = some m →
      executeFrom env.render (deviceCommit env message) st (D :: post) =
        Except.error (PyErr.homerError m,
          { st with events := st.events ++ [genLog D] })) := by
  refine ⟨?_, ?_, ?_, ?_⟩
  · intro m hconn htc
    have hdc : deviceCommit env message D cfg =
        { result := Except.ok (false, ""),
          events := [Event.connectOpen D.fqdn,
            Event.log ("Failed to commit on " ++ D.fqdn),
            Event.connectClose D.fqdn] } := by
      simp [deviceCommit, hconn, htc]
    rw [executeFrom_cons,
      executeStep_handler_ok env.render (deviceCommit env message) st D cfg false ""
        hr (by rw [hdc])]
    simp [hdc, genLog]
  · intro flag dtxt hconn hcc
    have hdd : deviceDiff env D cfg =
        { result := Except.ok (flag, dtxt),
          events := [Event.connectOpen D.fqdn, Event.connectClose D.fqdn] } := by
      simp [deviceDiff, hconn, hcc]
    rw [executeFrom_cons,
      executeStep_handler_ok env.render (deviceDiff env) st D cfg flag dtxt
        hr (by rw [hdd])]
    simp [hdd, genLog]
  · intro m hconn
    have hdd : deviceDiff env D cfg =
        { result := Except.error (PyErr.homerError m), events := [] } := by
      simp [deviceDiff, hconn]
    rw [executeFrom_cons,
      executeStep_handler_raises env.render (deviceDiff env) st D cfg
        (PyErr.homerError m) hr (by rw [hdd])]
    simp [hdd, genLog]
  · intro m hconn
    have hdc : deviceCommit env message D cfg =
        { result := Except.error (PyErr.homerError m), events := [] } := by
      simp [deviceCommit, hconn]
    rw [executeFrom_cons,
      executeStep_handler_raises env.render (deviceCommit env message) st D cfg
        (PyErr.homerError m) hr (by rw [hdc])]
    simp [hdc, genLog]

/-- C1 witness: concretely, an operator-aborted commit is a per-device
failure grouped under the empty diff (the amended per-device branch), while
a connect error on the first device aborts the diff run (the amended abort
branch). -/
theorem transport_error_handling_witness :
    transportCommit envAbort "a.example.com" "config-a.example.com" "-" =
      Except.error commitAbortedMsg
  ∧ executeFrom envAbort.render (deviceCommit envAbort "-") emptyAggregates
      [devA] =
      executeFrom envAbort.render (deviceCommit envAbort "-")
        { emptyAggregates with
            fail := ["a.example.com"],
            diffs := [("", ["a.example.com"])],
            events := [genLog devA, Event.connectOpen "a.example.com",
              Event.log "Failed to commit on a.example.com",
              Event.connectClose "a.example.com"] } []
  ∧ executeFrom envConnFail.render (deviceDiff envConnFail) emptyAggregates
      [devA, devB] =
      Except.error (PyErr.homerError "Connection failed",
        { emptyAggregates with events := [genLog devA] }) := by
  have h := transport_error_handling envAbort emptyAggregates devA []
    "config-a.example.com" "-" (by decide)
  have h2 := transport_error_handling envConnFail emptyAggregates devA [devB]
    "config-a.example.com" "-" (by decide)
  refine ⟨by decide, ?_, ?_⟩
  · have := h.1 commitAbortedMsg (by decide) (by decide)
    simpa [emptyAggregates, genLog] using this
  · have := h2.2.2.1 "Connection failed" (by decide)
    simpa [emptyAggregates, genLog] using this

/-- C2 counterexample: in a generate run over two devices where writing the
first device output file raises an OSError, the run aborts with that error:
the failure bucket at the abort point is empty (the device was not recorded)
and the second device was never processed — contradicting the claim that a
write failure is a local, per-device failure after which the run
continues. -/
theorem write_failure_aborts_cex :
    generateRun envWriteFail (some []) [devA, devB] =
      Except.error (PyErr.osError "No space left on device",
        { succ := [], fail := [], diffs := [],
          events := [Event.mkdir,
            Event.log "Generating configuration for a.example.com"] }) := by
  decide

/-- C2 (amended): a filesystem write failure while saving one device
configuration raises an uncaught OSError that aborts the whole run at that
device: the device is recorded in no outcome bucket and the subsequent
devices are not processed. -/
theorem write_failure_aborts (env : Env) (st : RunAggregates) (D : Device)
    (post : List Device) (cfg m : String)
    (hr : env.render D = Except.ok cfg)
    (hw : env.writeError (outputPath env D) = some m) :
    executeFrom env.render (deviceGenerate env) st (D :: post) =
      Except.error (PyErr.osError m,
        { st with events := st.events ++ [genLog D] }) := by
  have hdg : deviceGenerate env D cfg =
      { result := Except.error (PyErr.osError m), events := [] } := by
    simp [deviceGenerate, hw]
  rw [executeFrom_cons,
    executeStep_handler_raises env.render (deviceGenerate env) st D cfg
      (PyErr.osError m) hr (by rw [hdg])]
  simp [hdg, genLog]

/-- C2 witness: the amended statement at the concrete failing write. -/
theorem write_failure_aborts_witness :
    envWriteFail.writeError "/output/a.example.com.out" = some "No space left on device"
  ∧ executeFrom envWriteFail.render (deviceGenerate envWriteFail) emptyAggregates
      [devA, devB] =
      Except.error (PyErr.osError "No space left on device",
        { emptyAggregates with events := [genLog devA] }) := by
  refine ⟨by decide, ?_⟩
  have h := write_failure_aborts envWriteFail emptyAggregates devA [devB]
    "config-a.example.com" "No space left on device" (by decide) (by decide)
  simpa [emptyAggregates, genLog] using h

end Homer
